import Mathlib

/-!
Verification of the Bayesian belief-updating core of `llm-cognitive-crawler`.

The Python source (`llm_cognitive_crawler/core/bayesian_engine.py`,
`core/data_models.py`, `core/dynamic_hypothesis_generator.py`) is embedded
shallowly: Python floats become `ℚ` (exact arithmetic; `np.log` becomes
`Real.log` on the cast), insertion-ordered `dict`s become association lists
over `String` keys, and fallible code returns `Option`.
-/

namespace LLMCognitiveCrawler

/-! Python `dict` model: insertion-ordered association lists.
`d[k] = v` replaces in place when the key exists and appends otherwise;
`del d[k]` removes the entry; `d.get(k, default)` is a defaulted lookup. -/

def dictLookup (k : String) : List (String × α) → Option α
  | [] => none
  | kv :: t => if kv.1 == k then some kv.2 else dictLookup k t

def dictLookupD (k : String) (l : List (String × α)) (d : α) : α :=
  (dictLookup k l).getD d

def dictInsert (k : String) (v : α) : List (String × α) → List (String × α)
  | [] => [(k, v)]
  | kv :: t => if kv.1 == k then (k, v) :: t else kv :: dictInsert k v t

def dictErase (k : String) (l : List (String × α)) : List (String × α) :=
  l.filter (fun kv => !(kv.1 == k))

def keysOf (l : List (String × α)) : List String :=
  l.map Prod.fst

/-! Enums from `core/data_models.py`; `value` is the Python enum's string value. -/

inductive CognitiveDomain where
  | ethical_reasoning
  | logical_reasoning
  | risk_assessment
  | social_cognition
  | causal_reasoning
deriving DecidableEq

def CognitiveDomain.value : CognitiveDomain → String
  | .ethical_reasoning => "ethical_reasoning"
  | .logical_reasoning => "logical_reasoning"
  | .risk_assessment => "risk_assessment"
  | .social_cognition => "social_cognition"
  | .causal_reasoning => "causal_reasoning"

inductive ResponseType where
  | binary_choice
  | multiple_choice
  | likert_scale
  | free_text
  | numerical
deriving DecidableEq

def ResponseType.value : ResponseType → String
  | .binary_choice => "binary_choice"
  | .multiple_choice => "multiple_choice"
  | .likert_scale => "likert_scale"
  | .free_text => "free_text"
  | .numerical => "numerical"

/-- Dataclass `CognitiveHypothesis` (fields used by the core; free-form
`confidence_intervals`, `metadata` and `created_at` are omitted as unused). -/
structure CognitiveHypothesis where
  hypothesis_id : String
  name : String
  description : String
  predicted_response_patterns : List (String × List (String × ℚ))
  cognitive_attributes : List (String × ℚ)
  domain_specificity : List CognitiveDomain
  prior_probability : ℚ
  evidence_count : Nat
deriving DecidableEq

/-- Validation performed by `CognitiveHypothesis.__post_init__`: `true` means
construction succeeds, `false` means it raises `ValueError`. The checks are:
non-empty name, prior in [0,1], every cognitive attribute in [0,1]. The
probabilities inside `predicted_response_patterns` are NOT checked. -/
def CognitiveHypothesis.postInitValid (h : CognitiveHypothesis) : Bool :=
  decide (h.name ≠ "") &&
  (decide (0 ≤ h.prior_probability) && decide (h.prior_probability ≤ 1)) &&
  h.cognitive_attributes.all (fun kv => decide (0 ≤ kv.2) && decide (kv.2 ≤ 1))

/-- Dataclass `ProbingScenario` (fields consumed by the core). -/
structure ProbingScenario where
  scenario_id : String
  domain : CognitiveDomain
  prompt : String
  response_type : ResponseType
deriving DecidableEq

/-- Dataclass `LLMResponse` (fields consumed by the core). -/
structure LLMResponse where
  response_id : String
  scenario_id : String
  raw_response : String
  confidence_score : Option ℚ
deriving DecidableEq

/-! Embedding of `BayesianEngine.calculate_likelihood`. -/

/-- Contiguous-sublist test: does `needle` occur inside `haystack`? -/
def listContains (needle : List Char) : List Char → Bool
  | [] => needle.isEmpty
  | c :: t => needle.isPrefixOf (c :: t) || listContains needle t

/-- Python substring test `needle in haystack`. -/
def strContains (haystack needle : String) : Bool :=
  listContains needle.data haystack.data

/-- ASCII lowercasing of one character, as Python `str.lower` acts on the
ASCII texts this engine matches. -/
def charLower (c : Char) : Char :=
  if 'A' ≤ c ∧ c ≤ 'Z' then Char.ofNat (c.toNat + 32) else c

/-- Python `str.lower` (ASCII model). -/
def lowerStr (s : String) : String :=
  String.mk (s.data.map charLower)

/-- Whitespace removed by Python `str.strip` with no argument. -/
def isStripWS (c : Char) : Bool :=
  c = ' ' || c = '\t' || c = '\n' || c = '\r' || c = '\x0b' || c = '\x0c'

/-- Python `str.strip`: drop leading and trailing whitespace. -/
def trimStr (s : String) : String :=
  String.mk (((s.data.dropWhile isStripWS).reverse.dropWhile isStripWS).reverse)

/-- Scenario-type key `f"\x7bscenario.domain.value\x7d_\x7bscenario.response_type.value\x7d"`. -/
def scenarioKey (s : ProbingScenario) : String :=
  s.domain.value ++ "_" ++ s.response_type.value

/-- First-match-wins pattern scan of `calculate_likelihood`: likelihood starts
at the base 0.5 and is replaced by the probability of the first pattern whose
lowercased text occurs in the response text. -/
def matchLikelihood (patterns : List (String × ℚ)) (response_text : String) : ℚ :=
  ((patterns.find? (fun p => strContains response_text (lowerStr p.1))).map Prod.snd).getD (1/2)

/-- Confidence adjustment of `calculate_likelihood` step 4:
`likelihood * confidence + likelihood * (1 - confidence) * 0.5`. -/
def confidenceBlend (likelihood confidence : ℚ) : ℚ :=
  likelihood * confidence + likelihood * (1 - confidence) * (1/2)

/-- Value returned by the `except` branch of `calculate_likelihood`: any
internal error degrades to the neutral 0.5. -/
def likelihoodOnError : ℚ := 1/2

/-- Body of `BayesianEngine.calculate_likelihood` (the `try` body, which is
total in this embedding; the `except` branch is `likelihoodOnError`). -/
def calculate_likelihood (h : CognitiveHypothesis) (s : ProbingScenario)
    (r : LLMResponse) : ℚ :=
  let patterns := (dictLookup (scenarioKey s) h.predicted_response_patterns).getD []
  if patterns.isEmpty then 1/2
  else
    let response_text := trimStr (lowerStr r.raw_response)
    let likelihood := matchLikelihood patterns response_text
    let likelihood :=
      match r.confidence_score with
      | some c => confidenceBlend likelihood c
      | none => likelihood
    max (1/1000) (min (999/1000) likelihood)

/-! Embedding of the `BayesianEngine` state and its mutating methods. -/

/-- State of `BayesianEngine`: `hypotheses` (id → hypothesis),
`posterior_probabilities` (id → float), and the append-only
`evidence_log` of (hypothesis_id, scenario_id, likelihood) triples. -/
structure BayesianEngine where
  hypotheses : List (String × CognitiveHypothesis)
  posterior_probabilities : List (String × ℚ)
  evidence_log : List (String × String × ℚ)
deriving DecidableEq

/-- Fresh engine produced by `BayesianEngine.__init__`. -/
def emptyEngine : BayesianEngine :=
  { hypotheses := [], posterior_probabilities := [], evidence_log := [] }

/-- `BayesianEngine.add_hypothesis`: insert the hypothesis and initialize its
posterior to its `prior_probability`. -/
def add_hypothesis (e : BayesianEngine) (h : CognitiveHypothesis) : BayesianEngine :=
  { e with
    hypotheses := dictInsert h.hypothesis_id h e.hypotheses,
    posterior_probabilities :=
      dictInsert h.hypothesis_id h.prior_probability e.posterior_probabilities }

/-- `BayesianEngine.remove_hypothesis`: when the id is registered, delete it
from both maps; otherwise do nothing. Under the key-set invariant the two
deletions are the Python `del` on each dict. -/
def remove_hypothesis (e : BayesianEngine) (hypothesis_id : String) : BayesianEngine :=
  if (dictLookup hypothesis_id e.hypotheses).isSome then
    { e with
      hypotheses := dictErase hypothesis_id e.hypotheses,
      posterior_probabilities := dictErase hypothesis_id e.posterior_probabilities }
  else e

/-- Unnormalized posteriors of `update_beliefs`:
`likelihood * current_posterior` per registered hypothesis. The posterior
lookup defaults to 0, which is never hit under the key-set invariant
(Python would raise `KeyError` there). -/
def unnormalizedPosteriors (e : BayesianEngine) (s : ProbingScenario)
    (r : LLMResponse) : List (String × ℚ) :=
  e.hypotheses.map (fun kh =>
    (kh.1, calculate_likelihood kh.2 s r * dictLookupD kh.1 e.posterior_probabilities 0))

/-- `total_evidence` of `update_beliefs`: sum of the unnormalized posteriors. -/
def totalEvidence (e : BayesianEngine) (s : ProbingScenario) (r : LLMResponse) : ℚ :=
  ((unnormalizedPosteriors e s r).map Prod.snd).sum

/-- `BayesianEngine.update_beliefs`: if no hypotheses, return the empty map;
otherwise log evidence, form unnormalized posteriors, and when
`total_evidence > 0` renormalize and increment each `evidence_count`.
Returns the new engine state together with the returned posterior snapshot. -/
def update_beliefs (e : BayesianEngine) (s : ProbingScenario) (r : LLMResponse) :
    BayesianEngine × List (String × ℚ) :=
  if e.hypotheses.isEmpty then (e, [])
  else
    let logged : BayesianEngine :=
      { e with
        evidence_log := e.evidence_log ++
          e.hypotheses.map (fun kh => (kh.1, s.scenario_id, calculate_likelihood kh.2 s r)) }
    if 0 < totalEvidence e s r then
      let updated : BayesianEngine :=
        { logged with
          posterior_probabilities :=
            (unnormalizedPosteriors e s r).map
              (fun kv => (kv.1, kv.2 / totalEvidence e s r)),
          hypotheses :=
            logged.hypotheses.map
              (fun kh => (kh.1, { kh.2 with evidence_count := kh.2.evidence_count + 1 })) }
      (updated, updated.posterior_probabilities)
    else (logged, logged.posterior_probabilities)

/-- `BayesianEngine.reset_beliefs`: restore every posterior to the stored
`prior_probability`, zero every `evidence_count`, clear the evidence log. -/
def reset_beliefs (e : BayesianEngine) : BayesianEngine :=
  { hypotheses :=
      e.hypotheses.map (fun kh => (kh.1, { kh.2 with evidence_count := 0 })),
    posterior_probabilities :=
      e.hypotheses.map (fun kh => (kh.1, kh.2.prior_probability)),
    evidence_log := [] }

/-! Embedding of `BayesianEngine.calculate_surprise`. -/

/-- `total_weight` of `calculate_surprise`: sum of all posterior values. -/
def totalWeight (e : BayesianEngine) : ℚ :=
  (e.posterior_probabilities.map Prod.snd).sum

/-- Ensemble likelihood of `calculate_surprise`: posterior-weighted average of
the per-hypothesis likelihoods. -/
def ensembleLikelihood (e : BayesianEngine) (s : ProbingScenario) (r : LLMResponse) : ℚ :=
  (e.hypotheses.map (fun kh =>
    calculate_likelihood kh.2 s r *
      (dictLookupD kh.1 e.posterior_probabilities 0 / totalWeight e))).sum

/-- `BayesianEngine.calculate_surprise`: 0.0 with no hypotheses or zero total
weight; otherwise `max(0, -ln(ensemble))` when the ensemble likelihood is
positive and `max(0, 10)` (the sentinel) otherwise. -/
noncomputable def calculate_surprise (e : BayesianEngine) (s : ProbingScenario)
    (r : LLMResponse) : ℝ :=
  if e.hypotheses.isEmpty then 0
  else if totalWeight e = 0 then 0
  else if 0 < ensembleLikelihood e s r then
    max 0 (-Real.log ((ensembleLikelihood e s r : ℚ) : ℝ))
  else max 0 10

/-! Engine operation sequences, for the reachable-state invariant. -/

/-- One mutating engine call. -/
inductive EngineOp where
  | addH : CognitiveHypothesis → EngineOp
  | removeH : String → EngineOp
  | updateB : ProbingScenario → LLMResponse → EngineOp
  | resetB : EngineOp

/-- Apply one mutating call to the engine state. -/
def applyOp (e : BayesianEngine) : EngineOp → BayesianEngine
  | .addH h => add_hypothesis e h
  | .removeH hypothesis_id => remove_hypothesis e hypothesis_id
  | .updateB s r => (update_beliefs e s r).1
  | .resetB => reset_beliefs e

/-- Run a sequence of mutating calls starting from a fresh engine. -/
def runOps (ops : List EngineOp) : BayesianEngine :=
  ops.foldl applyOp emptyEngine

/-! Embedding of `DynamicHypothesisGenerator` (JSON extraction and
hypothesis construction from parsed data). -/

/-- Span extracted by `re.search(r'\x7b.*\x7d', text, re.DOTALL)` in
`_parse_hypothesis_response`: the greedy pattern matches from the FIRST
opening brace through the LAST closing brace that follows it, or fails. -/
def greedyBraceExtract (text : String) : Option String :=
  let fromFirst := text.data.dropWhile (fun c => c ≠ '{')
  let toLast := (fromFirst.reverse.dropWhile (fun c => c ≠ '}')).reverse
  if toLast.isEmpty then none else some (String.mk toLast)

/-- Scanner for the first balanced brace block: consume characters tracking
brace depth, returning the consumed block once depth returns to zero. -/
def takeBalanced : List Char → Nat → List Char → Option (List Char)
  | [], _, _ => none
  | c :: rest, depth, acc =>
    if c = '{' then takeBalanced rest (depth + 1) (c :: acc)
    else if c = '}' then
      if depth = 1 then some ((c :: acc).reverse)
      else takeBalanced rest (depth - 1) (c :: acc)
    else takeBalanced rest depth (c :: acc)

/-- Modelled from the spec: `_parse_hypothesis_response` step "Extract the
first balanced `\x7b...\x7d` block from the raw reply". The source instead uses the
greedy regex embedded as `greedyBraceExtract`. -/
def balancedBraceExtract (text : String) : Option String :=
  ((takeBalanced (text.data.dropWhile (fun c => c ≠ '{')) 0 []).map String.mk)

/-- Generation payload after JSON parsing and the required-field check of
`_parse_hypothesis_response` (`name`, `description`, `cognitive_attributes`
present; the remaining fields are optional). -/
structure GenerationData where
  name : String
  description : String
  predicted_patterns : List (String × List (String × ℚ))
  cognitive_attributes : List (String × ℚ)
  domain_specificity : List String
  confidence : Option ℚ
deriving DecidableEq

/-- Prior derivation of `_create_hypothesis_from_data`:
`max(0.05, min(0.2, confidence * 0.2))`. -/
def derivePrior (confidence : ℚ) : ℚ :=
  max (1/20) (min (1/5) (confidence * (1/5)))

/-- String-to-enum mapping of `CognitiveDomain(domain_str)`, dropping
unknown strings as the source's `except ValueError: continue` does. -/
def parseDomain (s : String) : Option CognitiveDomain :=
  if s = "ethical_reasoning" then some .ethical_reasoning
  else if s = "logical_reasoning" then some .logical_reasoning
  else if s = "risk_assessment" then some .risk_assessment
  else if s = "social_cognition" then some .social_cognition
  else if s = "causal_reasoning" then some .causal_reasoning
  else none

/-- `DynamicHypothesisGenerator._create_hypothesis_from_data`: build the
hypothesis; `data.get("confidence", 0.5)` defaults a missing confidence to
0.5. Constructing `CognitiveHypothesis` runs `__post_init__`; a
`ValueError` there is caught and yields `None`. The fresh uuid is passed in
as `new_id`; the scenario/response ids recorded in the omitted `metadata`
field do not influence any other field. -/
def create_hypothesis_from_data (new_id : String) (d : GenerationData) :
    Option CognitiveHypothesis :=
  let confidence := d.confidence.getD (1/2)
  let h : CognitiveHypothesis :=
    { hypothesis_id := new_id,
      name := d.name,
      description := d.description,
      predicted_response_patterns := d.predicted_patterns,
      cognitive_attributes := d.cognitive_attributes,
      domain_specificity := d.domain_specificity.filterMap parseDomain,
      prior_probability := derivePrior confidence,
      evidence_count := 0 }
  if h.postInitValid then some h else none

/-! Shared lemmas. -/

/-- Bounds produced by the final clamp of `calculate_likelihood` (both early
returns produce the in-range 0.5). -/
lemma calculate_likelihood_bounds (h : CognitiveHypothesis) (s : ProbingScenario)
    (r : LLMResponse) :
    1/1000 ≤ calculate_likelihood h s r ∧ calculate_likelihood h s r ≤ 999/1000 := by
  unfold calculate_likelihood
  by_cases hp : ((dictLookup (scenarioKey s) h.predicted_response_patterns).getD []).isEmpty
  · simp only [hp, if_true]
    norm_num
  · simp only [hp, if_false]
    refine ⟨le_max_left _ _, max_le (by norm_num) (min_le_left _ _)⟩

/-! Claim theorems. -/

/-- Claim C4: for every hypothesis, scenario and response — including the
no-pattern neutral branch and the `except` fallback `likelihoodOnError` —
the likelihood lies in [0.001, 0.999]. -/
theorem c4_likelihood_clamped :
    (∀ (h : CognitiveHypothesis) (s : ProbingScenario) (r : LLMResponse),
      1/1000 ≤ calculate_likelihood h s r ∧ calculate_likelihood h s r ≤ 999/1000) ∧
    (1/1000 ≤ likelihoodOnError ∧ likelihoodOnError ≤ 999/1000) :=
  ⟨fun h s r => calculate_likelihood_bounds h s r, by norm_num [likelihoodOnError]⟩

/-- Claim C2, counterexample: at matched likelihood 0.4 (inside [0.001,0.999])
and confidence 0 (inside [0,1]), the blend yields 0.2, which is strictly
FARTHER from the neutral 0.5 than 0.4 is — the blend scales toward 0, it does
not pull toward 0.5. -/
theorem c2_blend_counterexample :
    (1/1000 : ℚ) ≤ 2/5 ∧ (2/5 : ℚ) ≤ 999/1000 ∧ ((0 : ℚ) ≤ 0 ∧ (0 : ℚ) ≤ 1) ∧
    confidenceBlend (2/5) 0 = 1/5 ∧
    ¬ (|confidenceBlend (2/5) 0 - 1/2| ≤ |(2/5 : ℚ) - 1/2|) := by
  refine ⟨by norm_num, by norm_num, ⟨le_refl 0, by norm_num⟩, by norm_num [confidenceBlend], ?_⟩
  rw [show confidenceBlend (2/5) 0 = 1/5 by norm_num [confidenceBlend]]
  rw [show |(1/5 : ℚ) - 1/2| = 3/10 by norm_num [abs_of_nonpos]]
  rw [show |(2/5 : ℚ) - 1/2| = 1/10 by norm_num [abs_of_nonpos]]
  norm_num

/-- Claim C2 as amended: the blend equals `L * (1 + c) / 2`, so it lies
between `L/2` and `L` (a scaling toward 0 that dampens the magnitude of the
matched likelihood) and leaves `L` unchanged at confidence 1; it is not in
general closer to the neutral 0.5 than `L` is. -/
theorem c2_blend_amended (L c : ℚ) (hL0 : 1/1000 ≤ L) (_hL1 : L ≤ 999/1000)
    (hc0 : 0 ≤ c) (hc1 : c ≤ 1) :
    confidenceBlend L c = L * (1 + c) / 2 ∧
    L / 2 ≤ confidenceBlend L c ∧ confidenceBlend L c ≤ L ∧
    (c = 1 → confidenceBlend L c = L) := by
  unfold confidenceBlend
  refine ⟨by ring, by nlinarith, by nlinarith, fun hc => by rw [hc]; ring⟩

/-- Witness for `c2_blend_amended` at L = 0.4, c = 0.5. -/
theorem c2_blend_amended_witness :
    confidenceBlend (2/5) (1/2) = (2/5) * (1 + 1/2) / 2 ∧
    (2/5 : ℚ) / 2 ≤ confidenceBlend (2/5) (1/2) ∧ confidenceBlend (2/5) (1/2) ≤ 2/5 ∧
    ((1/2 : ℚ) = 1 → confidenceBlend (2/5) (1/2) = 2/5) :=
  c2_blend_amended (2/5) (1/2) (by norm_num) (by norm_num) (by norm_num) (by norm_num)

/-- Hypothesis with a predicted-pattern probability of 7.0: construction-time
validation does not inspect `predicted_response_patterns`. -/
def patternSevenHypothesis : CognitiveHypothesis :=
  { hypothesis_id := "p7",
    name := "Pattern Seven",
    description := "pattern table holds an out-of-range probability",
    predicted_response_patterns := [("ethical_reasoning_binary_choice", [("harm", 7)])],
    cognitive_attributes := [("risk_tolerance", 1/2)],
    domain_specificity := [],
    prior_probability := 1/10,
    evidence_count := 0 }

/-- Success condition of `__post_init__` in positive form. -/
lemma postInitValid_eq_true_iff (h : CognitiveHypothesis) :
    h.postInitValid = true ↔
      (h.name ≠ "" ∧ (0 ≤ h.prior_probability ∧ h.prior_probability ≤ 1) ∧
       ∀ kv ∈ h.cognitive_attributes, 0 ≤ kv.2 ∧ kv.2 ≤ 1) := by
  simp [CognitiveHypothesis.postInitValid, List.all_eq_true, and_assoc]

/-- Claim C10: `__post_init__` rejects a hypothesis exactly when the name is
empty, the prior lies outside [0,1], or some cognitive attribute lies outside
[0,1]; pattern probabilities are not validated, so 7.0 is accepted and flows
into the pattern-match step as a likelihood source. -/
theorem c10_post_init_validation :
    (∀ h : CognitiveHypothesis, h.postInitValid = false ↔
      (h.name = "" ∨ h.prior_probability < 0 ∨ 1 < h.prior_probability ∨
       ∃ kv ∈ h.cognitive_attributes, kv.2 < 0 ∨ 1 < kv.2)) ∧
    patternSevenHypothesis.postInitValid = true ∧
    dictLookup "ethical_reasoning_binary_choice"
      patternSevenHypothesis.predicted_response_patterns = some [("harm", 7)] ∧
    matchLikelihood [("harm", 7)] "we chose harm" = 7 := by
  refine ⟨fun h => ?_, ?_, by simp [patternSevenHypothesis, dictLookup], rfl⟩
  · rw [← Bool.not_eq_true, postInitValid_eq_true_iff]
    constructor
    · intro hn
      by_contra hcon
      push_neg at hcon
      obtain ⟨hname, hp0, hp1, hattr⟩ := hcon
      refine hn ⟨hname, ⟨hp0, hp1⟩, fun kv hmem => ?_⟩
      obtain ⟨ha, hb⟩ := hattr kv hmem
      exact ⟨ha, hb⟩
    · rintro (h1 | h1 | h1 | ⟨kv, hmem, hb⟩) ⟨hname, ⟨hp0, hp1⟩, hattr⟩
      · exact hname h1
      · exact absurd hp0 (not_le.mpr h1)
      · exact absurd hp1 (not_le.mpr h1)
      · rcases hb with hb | hb
        · exact absurd (hattr kv hmem).1 (not_le.mpr hb)
        · exact absurd (hattr kv hmem).2 (not_le.mpr hb)
  · rw [postInitValid_eq_true_iff]
    refine ⟨by simp [patternSevenHypothesis], by norm_num [patternSevenHypothesis], ?_⟩
    intro kv hmem
    simp only [patternSevenHypothesis, List.mem_singleton] at hmem
    rw [hmem]
    norm_num

/-- Bounds of the derived prior: the clamp keeps it in [0.05, 0.2] for every
rational confidence. -/
lemma derivePrior_bounds (c : ℚ) : 1/20 ≤ derivePrior c ∧ derivePrior c ≤ 1/5 :=
  ⟨le_max_left _ _, max_le (by norm_num) (min_le_left _ _)⟩

/-- Claim C8: a hypothesis built by `_create_hypothesis_from_data` carries
`prior_probability = max(0.05, min(0.2, confidence * 0.2))`, always inside
[0.05, 0.2]; a missing confidence defaults to 0.5 and yields prior 0.1, and
any confidence at least 1 yields prior 0.2. -/
theorem c8_generated_prior (new_id : String) (d : GenerationData)
    (h : CognitiveHypothesis) (hc : create_hypothesis_from_data new_id d = some h) :
    h.prior_probability = derivePrior (d.confidence.getD (1/2)) ∧
    (1/20 ≤ h.prior_probability ∧ h.prior_probability ≤ 1/5) ∧
    (d.confidence = none → h.prior_probability = 1/10) ∧
    (∀ c, d.confidence = some c → 1 ≤ c → h.prior_probability = 1/5) := by
  simp only [create_hypothesis_from_data] at hc
  split at hc
  case isTrue hv =>
    have hh := Option.some.inj hc
    subst hh
    refine ⟨rfl, derivePrior_bounds _, fun hn => ?_, fun c hcc h1 => ?_⟩
    · simp only [hn, Option.getD]
      norm_num [derivePrior]
    · simp only [hcc, Option.getD]
      unfold derivePrior
      rw [min_eq_left (by nlinarith), max_eq_right (by norm_num)]
  case isFalse => exact absurd hc (by simp)

/-- Generation payload whose confidence field exceeds 1. -/
def overconfidentData : GenerationData :=
  { name := "Overconfident",
    description := "confidence above one",
    predicted_patterns := [],
    cognitive_attributes := [("rule_adherence", 1/2)],
    domain_specificity := ["ethical_reasoning", "unknown_domain"],
    confidence := some 3 }

/-- Hypothesis produced from `overconfidentData`. -/
def overconfidentHypothesis : CognitiveHypothesis :=
  { hypothesis_id := "gen1",
    name := "Overconfident",
    description := "confidence above one",
    predicted_response_patterns := [],
    cognitive_attributes := [("rule_adherence", 1/2)],
    domain_specificity := [.ethical_reasoning],
    prior_probability := 1/5,
    evidence_count := 0 }

/-- Evaluation of the derived prior at confidence 3 (clamped down to 0.2). -/
lemma derivePrior_three : derivePrior 3 = 1/5 := by
  rw [derivePrior, min_eq_left (by norm_num), max_eq_right (by norm_num)]

/-- Construction of the concrete generated hypothesis succeeds and produces
`overconfidentHypothesis`. -/
lemma create_overconfident_eq :
    create_hypothesis_from_data "gen1" overconfidentData = some overconfidentHypothesis := by
  simp only [create_hypothesis_from_data, overconfidentData, Option.getD_some, derivePrior_three]
  split
  · simp [overconfidentHypothesis, parseDomain]
  · rename_i hv
    exfalso
    apply hv
    rw [postInitValid_eq_true_iff]
    refine ⟨by simp, by norm_num, ?_⟩
    intro kv hmem
    simp only [List.mem_singleton] at hmem
    rw [hmem]
    norm_num

/-- Witness for `c8_generated_prior` on a payload with confidence 3. -/
theorem c8_generated_prior_witness :
    create_hypothesis_from_data "gen1" overconfidentData = some overconfidentHypothesis ∧
    overconfidentHypothesis.prior_probability =
      derivePrior (overconfidentData.confidence.getD (1/2)) ∧
    (1/20 ≤ overconfidentHypothesis.prior_probability ∧
      overconfidentHypothesis.prior_probability ≤ 1/5) :=
  ⟨create_overconfident_eq,
   (c8_generated_prior "gen1" overconfidentData overconfidentHypothesis
     create_overconfident_eq).1,
   (c8_generated_prior "gen1" overconfidentData overconfidentHypothesis
     create_overconfident_eq).2.1⟩

/-- Lookup after inserting the same key returns the inserted value. -/
lemma dictLookup_insert_self (k : String) (v : α) (l : List (String × α)) :
    dictLookup k (dictInsert k v l) = some v := by
  induction l with
  | nil => simp [dictInsert, dictLookup]
  | cons kv t ih =>
    by_cases h : kv.1 = k
    · simp [dictInsert, dictLookup, h]
    · simp [dictInsert, dictLookup, h, ih]

/-- Lookup at a different key is unaffected by an insertion. -/
lemma dictLookup_insert_ne (k q : String) (v : α) (l : List (String × α))
    (h : q ≠ k) : dictLookup q (dictInsert k v l) = dictLookup q l := by
  induction l with
  | nil => simp [dictInsert, dictLookup, Ne.symm h]
  | cons kv t ih =>
    by_cases hk : kv.1 = k
    · simp [dictInsert, dictLookup, hk, Ne.symm h]
    · by_cases hq : kv.1 = q
      · simp [dictInsert, dictLookup, hk, hq, h]
      · simp [dictInsert, dictLookup, hk, hq, ih]

/-- Claim C6: `add_hypothesis` initializes the posterior of the new id to the
hypothesis's prior, leaves every other posterior untouched (no
renormalization), and leaves the evidence log unchanged. -/
theorem c6_add_hypothesis_frame (e : BayesianEngine) (h : CognitiveHypothesis) :
    dictLookup h.hypothesis_id (add_hypothesis e h).posterior_probabilities
      = some h.prior_probability ∧
    (∀ q : String, q ≠ h.hypothesis_id →
      dictLookup q (add_hypothesis e h).posterior_probabilities
        = dictLookup q e.posterior_probabilities) ∧
    (add_hypothesis e h).evidence_log = e.evidence_log :=
  ⟨dictLookup_insert_self _ _ _, fun _ hq => dictLookup_insert_ne _ _ _ _ hq, rfl⟩

/-- Witness for `c6_add_hypothesis_frame` on a fresh engine. -/
theorem c6_add_hypothesis_frame_witness :
    dictLookup overconfidentHypothesis.hypothesis_id
      (add_hypothesis emptyEngine overconfidentHypothesis).posterior_probabilities
      = some overconfidentHypothesis.prior_probability ∧
    dictLookup "other"
      (add_hypothesis emptyEngine overconfidentHypothesis).posterior_probabilities
      = dictLookup "other" emptyEngine.posterior_probabilities ∧
    (add_hypothesis emptyEngine overconfidentHypothesis).evidence_log
      = emptyEngine.evidence_log :=
  ⟨(c6_add_hypothesis_frame emptyEngine overconfidentHypothesis).1,
   (c6_add_hypothesis_frame emptyEngine overconfidentHypothesis).2.1 "other" (by decide),
   (c6_add_hypothesis_frame emptyEngine overconfidentHypothesis).2.2⟩

/-- Renormalization across a value map: dividing every value divides the sum. -/
lemma sum_snd_map_div (l : List (String × ℚ)) (t : ℚ) :
    ((l.map (fun kv => (kv.1, kv.2 / t))).map Prod.snd).sum
      = ((l.map Prod.snd).sum) / t := by
  induction l with
  | nil => simp
  | cons kv tl ih =>
    simp only [List.map_cons, List.sum_cons]
    rw [ih, add_div]

/-- Claim C1: whenever `total_evidence > 0`, the posterior values after
`update_beliefs` sum to exactly 1 (hence certainly within 1e-9 of 1.0), and
the mapping returned by the call is exactly the engine's new posterior map. -/
theorem c1_posterior_normalization (e : BayesianEngine) (s : ProbingScenario)
    (r : LLMResponse) (hpos : 0 < totalEvidence e s r) :
    ((update_beliefs e s r).1.posterior_probabilities.map Prod.snd).sum = 1 ∧
    (update_beliefs e s r).2 = (update_beliefs e s r).1.posterior_probabilities := by
  have hne : e.hypotheses.isEmpty = false := by
    cases hh : e.hypotheses with
    | nil =>
      exfalso
      rw [totalEvidence, unnormalizedPosteriors, hh] at hpos
      simp at hpos
    | cons a t => rfl
  constructor
  · simp only [update_beliefs, hne, Bool.false_eq_true, if_false, hpos, if_true]
    rw [sum_snd_map_div]
    exact div_self (ne_of_gt hpos)
  · simp only [update_beliefs, hne, Bool.false_eq_true, if_false, hpos, if_true]

/-- Hypothesis with no pattern tables, used by witnesses. -/
def plainHypothesis : CognitiveHypothesis :=
  { hypothesis_id := "w1",
    name := "Plain",
    description := "no pattern tables",
    predicted_response_patterns := [],
    cognitive_attributes := [],
    domain_specificity := [],
    prior_probability := 1/2,
    evidence_count := 0 }

/-- Engine holding `plainHypothesis` with posterior 0.5. -/
def plainEngine : BayesianEngine :=
  { hypotheses := [("w1", plainHypothesis)],
    posterior_probabilities := [("w1", 1/2)],
    evidence_log := [] }

/-- Scenario used by witnesses. -/
def witnessScenario : ProbingScenario :=
  { scenario_id := "ws",
    domain := .logical_reasoning,
    prompt := "prompt",
    response_type := .free_text }

/-- Response used by witnesses. -/
def witnessResponse : LLMResponse :=
  { response_id := "wr",
    scenario_id := "ws",
    raw_response := "some text",
    confidence_score := none }

/-- Witness for `c1_posterior_normalization` on `plainEngine`. -/
theorem c1_posterior_normalization_witness :
    ((update_beliefs plainEngine witnessScenario witnessResponse).1.posterior_probabilities.map
      Prod.snd).sum = 1 ∧
    (update_beliefs plainEngine witnessScenario witnessResponse).2
      = (update_beliefs plainEngine witnessScenario
          witnessResponse).1.posterior_probabilities :=
  c1_posterior_normalization plainEngine witnessScenario witnessResponse
    (by norm_num [totalEvidence, unnormalizedPosteriors, plainEngine, plainHypothesis,
      calculate_likelihood, dictLookup, dictLookupD])

/-- Claim C5: when `total_evidence == 0`, `update_beliefs` preserves every
posterior exactly and leaves the hypotheses — in particular every
`evidence_count` — unchanged. -/
theorem c5_degenerate_update (e : BayesianEngine) (s : ProbingScenario)
    (r : LLMResponse) (hz : totalEvidence e s r = 0) :
    (update_beliefs e s r).1.posterior_probabilities = e.posterior_probabilities ∧
    (update_beliefs e s r).1.hypotheses = e.hypotheses := by
  have hns : ¬ (0 < totalEvidence e s r) := by rw [hz]; exact lt_irrefl 0
  by_cases hh : e.hypotheses.isEmpty
  · simp [update_beliefs, hh]
  · simp [update_beliefs, hh, hns]

/-- Engine whose only hypothesis carries posterior mass 0, so that the
unnormalized total is 0. -/
def zeroMassEngine : BayesianEngine :=
  { hypotheses := [("w1", plainHypothesis)],
    posterior_probabilities := [("w1", 0)],
    evidence_log := [] }

/-- Witness for `c5_degenerate_update` on `zeroMassEngine`. -/
theorem c5_degenerate_update_witness :
    (update_beliefs zeroMassEngine witnessScenario witnessResponse).1.posterior_probabilities
      = zeroMassEngine.posterior_probabilities ∧
    (update_beliefs zeroMassEngine witnessScenario witnessResponse).1.hypotheses
      = zeroMassEngine.hypotheses :=
  c5_degenerate_update zeroMassEngine witnessScenario witnessResponse
    (by norm_num [totalEvidence, unnormalizedPosteriors, zeroMassEngine, plainHypothesis,
      calculate_likelihood, dictLookup, dictLookupD])

/-- Reply consisting of prose, a balanced JSON object, then trailing prose
containing a later closing brace. -/
def strayBraceReply : String :=
  "Here: \x7b \x22name\x22: \x22X\x22 \x7d and later a stray \x7d mark"

/-- Claim C3, divergence: on `strayBraceReply` the source's greedy regex span
runs from the first opening brace to the LAST closing brace, swallowing the
trailing prose, and differs from the first balanced block that the spec
prescribes (the greedy span is not valid JSON, so `json.loads` fails and the
parse returns `None` instead of the first balanced object). -/
theorem c3_greedy_regex_diverges :
    greedyBraceExtract strayBraceReply
      = some "\x7b \x22name\x22: \x22X\x22 \x7d and later a stray \x7d" ∧
    balancedBraceExtract strayBraceReply = some "\x7b \x22name\x22: \x22X\x22 \x7d" ∧
    greedyBraceExtract strayBraceReply ≠ balancedBraceExtract strayBraceReply :=
  ⟨rfl, rfl, by decide⟩

/-- Key-list image of `dictInsert`. -/
def keyIns (k : String) : List String → List String
  | [] => [k]
  | k1 :: t => if k1 == k then k :: t else k1 :: keyIns k t

/-- Boolean key membership. -/
def keyMem (k : String) : List String → Bool
  | [] => false
  | k1 :: t => (k1 == k) || keyMem k t

/-- Keys after a `dictInsert` depend only on the previous keys. -/
lemma keysOf_dictInsert (k : String) (v : α) (l : List (String × α)) :
    keysOf (dictInsert k v l) = keyIns k (keysOf l) := by
  induction l with
  | nil => rfl
  | cons kv t ih =>
    by_cases h : kv.1 = k
    · simp [dictInsert, keyIns, keysOf, h]
    · simpa [dictInsert, keyIns, keysOf, h] using ih

/-- Keys after a `dictErase` depend only on the previous keys. -/
lemma keysOf_dictErase (k : String) (l : List (String × α)) :
    keysOf (dictErase k l) = (keysOf l).filter (fun q => !(q == k)) := by
  induction l with
  | nil => rfl
  | cons kv t ih =>
    by_cases h : kv.1 = k
    · simpa [dictErase, keysOf, List.filter_cons, h] using ih
    · simpa [dictErase, keysOf, List.filter_cons, h] using ih

/-- Whether a lookup succeeds depends only on the keys. -/
lemma dictLookup_isSome_eq (k : String) (l : List (String × α)) :
    (dictLookup k l).isSome = keyMem k (keysOf l) := by
  induction l with
  | nil => rfl
  | cons kv t ih =>
    by_cases h : kv.1 = k
    · simp [dictLookup, keysOf, keyMem, h]
    · have hb : (kv.1 == k) = false := beq_eq_false_iff_ne.mpr h
      simpa [dictLookup, keysOf, keyMem, hb] using ih

/-- Mapping that preserves the key of each entry preserves the key list. -/
lemma map_fst_map_keyed (l : List (String × β)) (f : String × β → γ) :
    (l.map (fun kv => (kv.1, f kv))).map Prod.fst = l.map Prod.fst := by
  induction l with
  | nil => rfl
  | cons kv t ih => simp only [List.map_cons, ih]

/-- Invariant of C7: the posterior map and the hypothesis map always hold
exactly the same keys, in the same order. -/
def KeysInv (e : BayesianEngine) : Prop :=
  keysOf e.posterior_probabilities = keysOf e.hypotheses

/-- The invariant survives `add_hypothesis`. -/
lemma keysInv_add (e : BayesianEngine) (h : CognitiveHypothesis)
    (hi : KeysInv e) : KeysInv (add_hypothesis e h) := by
  show keysOf (dictInsert h.hypothesis_id h.prior_probability e.posterior_probabilities)
    = keysOf (dictInsert h.hypothesis_id h e.hypotheses)
  rw [keysOf_dictInsert, keysOf_dictInsert, hi]

/-- The invariant survives `remove_hypothesis`. -/
lemma keysInv_remove (e : BayesianEngine) (q : String)
    (hi : KeysInv e) : KeysInv (remove_hypothesis e q) := by
  unfold remove_hypothesis
  split
  · show keysOf (dictErase q e.posterior_probabilities) = keysOf (dictErase q e.hypotheses)
    rw [keysOf_dictErase, keysOf_dictErase, hi]
  · exact hi

/-- The invariant survives `update_beliefs`. -/
lemma keysInv_update (e : BayesianEngine) (s : ProbingScenario) (r : LLMResponse)
    (hi : KeysInv e) : KeysInv ((update_beliefs e s r).1) := by
  simp only [update_beliefs]
  split
  · exact hi
  · split
    · have h1 : keysOf ((unnormalizedPosteriors e s r).map
          (fun kv => (kv.1, kv.2 / totalEvidence e s r))) = keysOf e.hypotheses := by
        unfold keysOf unnormalizedPosteriors
        rw [map_fst_map_keyed, map_fst_map_keyed]
      exact h1.trans (map_fst_map_keyed e.hypotheses _).symm
    · exact hi

/-- The invariant survives `reset_beliefs`. -/
lemma keysInv_reset (e : BayesianEngine) (_hi : KeysInv e) :
    KeysInv (reset_beliefs e) :=
  (map_fst_map_keyed e.hypotheses _).trans (map_fst_map_keyed e.hypotheses _).symm

/-- The invariant survives any single mutating call. -/
lemma keysInv_applyOp (e : BayesianEngine) (op : EngineOp) (hi : KeysInv e) :
    KeysInv (applyOp e op) := by
  cases op with
  | addH h => exact keysInv_add e h hi
  | removeH q => exact keysInv_remove e q hi
  | updateB s r => exact keysInv_update e s r hi
  | resetB => exact keysInv_reset e hi

/-- The invariant survives any call sequence. -/
lemma keysInv_foldl (ops : List EngineOp) (e : BayesianEngine) (hi : KeysInv e) :
    KeysInv (ops.foldl applyOp e) := by
  induction ops generalizing e with
  | nil => exact hi
  | cons op t ih => exact ih (applyOp e op) (keysInv_applyOp e op hi)

/-- Claim C7: starting from a fresh engine, any sequence of `add_hypothesis`,
`remove_hypothesis`, `update_beliefs` and `reset_beliefs` calls keeps the key
set of `posterior_probabilities` equal to the key set of `hypotheses`; in
particular `remove_hypothesis` of an unregistered id is a no-op. -/
theorem c7_key_set_invariant :
    (∀ ops : List EngineOp,
      keysOf (runOps ops).posterior_probabilities = keysOf (runOps ops).hypotheses) ∧
    (∀ (e : BayesianEngine) (q : String),
      dictLookup q e.hypotheses = none → remove_hypothesis e q = e) := by
  constructor
  · intro ops
    exact keysInv_foldl ops emptyEngine rfl
  · intro e q hq
    unfold remove_hypothesis
    rw [hq]
    simp

/-- Witness for `c7_key_set_invariant` on a concrete call sequence. -/
theorem c7_key_set_invariant_witness :
    keysOf (runOps [.addH plainHypothesis, .resetB, .removeH "nope",
        .removeH "w1"]).posterior_probabilities
      = keysOf (runOps [.addH plainHypothesis, .resetB, .removeH "nope",
          .removeH "w1"]).hypotheses ∧
    remove_hypothesis emptyEngine "ghost" = emptyEngine :=
  ⟨c7_key_set_invariant.1 _, c7_key_set_invariant.2 emptyEngine "ghost" rfl⟩

/-- Dividing every element of a list divides its sum. -/
lemma sum_map_div (l : List ℚ) (t : ℚ) :
    (l.map (fun x => x / t)).sum = l.sum / t := by
  induction l with
  | nil => simp
  | cons x tl ih =>
    simp only [List.map_cons, List.sum_cons]
    rw [ih, add_div]

/-- A defaulted lookup in a map of nonnegative values is nonnegative. -/
lemma lookupD_nonneg (posts : List (String × ℚ)) (hnn : ∀ kv ∈ posts, 0 ≤ kv.2)
    (k : String) : 0 ≤ dictLookupD k posts 0 := by
  induction posts with
  | nil => simp [dictLookupD, dictLookup]
  | cons kv t ih =>
    by_cases h : kv.1 = k
    · simpa [dictLookupD, dictLookup, h] using hnn kv (by simp)
    · have := ih (fun x hx => hnn x (List.mem_cons_of_mem _ hx))
      simpa [dictLookupD, dictLookup, h] using this

/-- Under matching key lists without duplicates, looking every hypothesis key
up in the posterior map enumerates exactly the posterior values. -/
lemma map_lookupD_eq (posts : List (String × ℚ))
    (hyps : List (String × CognitiveHypothesis))
    (hk : keysOf posts = keysOf hyps) (hnd : (keysOf hyps).Nodup) :
    hyps.map (fun kh => dictLookupD kh.1 posts 0) = posts.map Prod.snd := by
  induction posts generalizing hyps with
  | nil =>
    have : hyps = [] := by
      cases hyps with
      | nil => rfl
      | cons a t => simp [keysOf] at hk
    rw [this]
    rfl
  | cons kv pt ih =>
    cases hyps with
    | nil => simp [keysOf] at hk
    | cons kh ht =>
      simp only [keysOf, List.map_cons, List.cons.injEq] at hk
      obtain ⟨hk1, hk2⟩ := hk
      simp only [keysOf, List.map_cons, List.nodup_cons] at hnd
      obtain ⟨hnot, hnd2⟩ := hnd
      simp only [List.map_cons]
      have hhead : dictLookupD kh.1 (kv :: pt) 0 = kv.2 := by
        simp [dictLookupD, dictLookup, hk1]
      have htail : ht.map (fun kh2 => dictLookupD kh2.1 (kv :: pt) 0)
          = ht.map (fun kh2 => dictLookupD kh2.1 pt 0) := by
        apply List.map_congr_left
        intro a ha
        have hane : ¬ (kv.1 = a.1) := by
          intro hcontra
          apply hnot
          rw [← hk1, hcontra]
          exact List.mem_map_of_mem Prod.fst ha
        simp [dictLookupD, dictLookup, hane]
      rw [hhead, htail, ih ht hk2 hnd2]

/-- The ensemble likelihood of `calculate_surprise` inherits the clamp of the
per-hypothesis likelihoods whenever the posterior weights are a nonnegative
distribution with positive total mass. -/
lemma ensembleLikelihood_bounds (e : BayesianEngine) (s : ProbingScenario)
    (r : LLMResponse)
    (hk : keysOf e.posterior_probabilities = keysOf e.hypotheses)
    (hnd : (keysOf e.hypotheses).Nodup)
    (hnn : ∀ kv ∈ e.posterior_probabilities, 0 ≤ kv.2)
    (hW : 0 < totalWeight e) :
    1/1000 ≤ ensembleLikelihood e s r ∧ ensembleLikelihood e s r ≤ 999/1000 := by
  have hsum : (e.hypotheses.map
      (fun kh => dictLookupD kh.1 e.posterior_probabilities 0 / totalWeight e)).sum = 1 := by
    have h1 : e.hypotheses.map
        (fun kh => dictLookupD kh.1 e.posterior_probabilities 0 / totalWeight e)
        = (e.hypotheses.map (fun kh => dictLookupD kh.1 e.posterior_probabilities 0)).map
            (fun x => x / totalWeight e) := by
      rw [List.map_map]
      rfl
    rw [h1, map_lookupD_eq _ _ hk hnd, sum_map_div]
    exact div_self (ne_of_gt hW)
  have hwnn : ∀ kh ∈ e.hypotheses,
      0 ≤ dictLookupD kh.1 e.posterior_probabilities 0 / totalWeight e := by
    intro kh _
    exact div_nonneg (lookupD_nonneg _ hnn kh.1) (le_of_lt hW)
  constructor
  · calc (1/1000 : ℚ)
        = (1/1000) * 1 := by ring
      _ = (1/1000) * (e.hypotheses.map
            (fun kh => dictLookupD kh.1 e.posterior_probabilities 0 / totalWeight e)).sum := by
          rw [hsum]
      _ = (e.hypotheses.map (fun kh =>
            (1/1000) * (dictLookupD kh.1 e.posterior_probabilities 0 / totalWeight e))).sum := by
          rw [List.sum_map_mul_left]
      _ ≤ (e.hypotheses.map (fun kh => calculate_likelihood kh.2 s r *
            (dictLookupD kh.1 e.posterior_probabilities 0 / totalWeight e))).sum := by
          refine List.sum_le_sum ?_
          intro kh hmem
          exact mul_le_mul_of_nonneg_right (calculate_likelihood_bounds kh.2 s r).1
            (hwnn kh hmem)
      _ = ensembleLikelihood e s r := rfl
  · calc ensembleLikelihood e s r
        = (e.hypotheses.map (fun kh => calculate_likelihood kh.2 s r *
            (dictLookupD kh.1 e.posterior_probabilities 0 / totalWeight e))).sum := rfl
      _ ≤ (e.hypotheses.map (fun kh =>
            (999/1000) * (dictLookupD kh.1 e.posterior_probabilities 0 / totalWeight e))).sum := by
          refine List.sum_le_sum ?_
          intro kh hmem
          exact mul_le_mul_of_nonneg_right (calculate_likelihood_bounds kh.2 s r).2
            (hwnn kh hmem)
      _ = (999/1000) * (e.hypotheses.map
            (fun kh => dictLookupD kh.1 e.posterior_probabilities 0 / totalWeight e)).sum := by
          rw [List.sum_map_mul_left]
      _ = 999/1000 := by rw [hsum]; ring

/-- Claim C9: with nonnegative posteriors of positive total mass (and the
key-set invariant of the two engine maps), the ensemble likelihood is at
least 0.001 — so the zero-likelihood sentinel branch of `calculate_surprise`
is not taken — and the surprise lies in [0, ln 1000]. -/
theorem c9_surprise_bounded (e : BayesianEngine) (s : ProbingScenario)
    (r : LLMResponse)
    (hk : keysOf e.posterior_probabilities = keysOf e.hypotheses)
    (hnd : (keysOf e.hypotheses).Nodup)
    (hnn : ∀ kv ∈ e.posterior_probabilities, 0 ≤ kv.2)
    (hW : 0 < totalWeight e) :
    1/1000 ≤ ensembleLikelihood e s r ∧
    calculate_surprise e s r
      = max 0 (-Real.log ((ensembleLikelihood e s r : ℚ) : ℝ)) ∧
    0 ≤ calculate_surprise e s r ∧
    calculate_surprise e s r ≤ Real.log 1000 := by
  obtain ⟨hlo, hhi⟩ := ensembleLikelihood_bounds e s r hk hnd hnn hW
  have hel : 0 < ensembleLikelihood e s r := lt_of_lt_of_le (by norm_num) hlo
  have hne : ¬ (e.hypotheses.isEmpty = true) := by
    cases hhy : e.hypotheses with
    | nil =>
      exfalso
      rw [totalWeight] at hW
      cases hps : e.posterior_probabilities with
      | nil => rw [hps] at hW; simp at hW
      | cons a t =>
        rw [hps, hhy] at hk
        simp [keysOf] at hk
    | cons a t => simp [hhy]
  have hWne : ¬ (totalWeight e = 0) := ne_of_gt hW
  have hform : calculate_surprise e s r
      = max 0 (-Real.log ((ensembleLikelihood e s r : ℚ) : ℝ)) := by
    unfold calculate_surprise
    rw [if_neg hne, if_neg hWne, if_pos hel]
  refine ⟨hlo, hform, ?_, ?_⟩
  · rw [hform]
    exact le_max_left 0 _
  · rw [hform]
    refine max_le (Real.log_nonneg (by norm_num)) ?_
    have helR : (0 : ℝ) < ((ensembleLikelihood e s r : ℚ) : ℝ) := by
      exact_mod_cast hel
    have hloR : (1/1000 : ℝ) ≤ ((ensembleLikelihood e s r : ℚ) : ℝ) := by
      rw [show (1/1000 : ℝ) = ((1/1000 : ℚ) : ℝ) by norm_num]
      exact_mod_cast hlo
    have h1000 : (1 : ℝ) ≤ 1000 * ((ensembleLikelihood e s r : ℚ) : ℝ) := by
      linarith
    have hlog : 0 ≤ Real.log (1000 * ((ensembleLikelihood e s r : ℚ) : ℝ)) :=
      Real.log_nonneg h1000
    rw [Real.log_mul (by norm_num) (ne_of_gt helR)] at hlog
    linarith

/-- Witness for `c9_surprise_bounded` on `plainEngine`. -/
theorem c9_surprise_bounded_witness :
    1/1000 ≤ ensembleLikelihood plainEngine witnessScenario witnessResponse ∧
    calculate_surprise plainEngine witnessScenario witnessResponse
      = max 0 (-Real.log
          ((ensembleLikelihood plainEngine witnessScenario witnessResponse : ℚ) : ℝ)) ∧
    0 ≤ calculate_surprise plainEngine witnessScenario witnessResponse ∧
    calculate_surprise plainEngine witnessScenario witnessResponse ≤ Real.log 1000 :=
  c9_surprise_bounded plainEngine witnessScenario witnessResponse rfl
    (by simp [plainEngine, keysOf])
    (by norm_num [plainEngine])
    (by norm_num [totalWeight, plainEngine])

end LLMCognitiveCrawler
